import Mathlib

/-!
Verification of the dropbox-downloader batch orchestration engine.

Shallow embedding of `src/batch_processor.py`, `src/cli.py` and
`src/models.py`.  External effects (the filesystem, the download engine,
`shutil` operations) are modelled by explicit state and per-call oracles:
each fallible Python operation becomes an `Except String` value supplied
through an environment record, and the `try/except` structure of the
Python code becomes explicit `match` on those values.
-/

namespace DropboxDL

/-! ## String helpers with Python semantics -/

/-- Character-list test: `n` begins `h` (used to detect substring occurrences,
mirroring Python's `in` operator on strings). -/
def isPre : List Char → List Char → Bool
  | [], _ => true
  | _ :: _, [] => false
  | a :: as, b :: bs => a == b && isPre as bs

/-- `hasSub n h` holds when the character list `n` occurs contiguously inside `h`. -/
def hasSub (n : List Char) : List Char → Bool
  | [] => n.isEmpty
  | c :: t => isPre n (c :: t) || hasSub n t

/-- Python's `needle in hay` for strings. -/
def strContains (hay needle : String) : Bool :=
  hasSub needle.data hay.data

/-- Python `str.strip()` (no arguments): remove leading and trailing
whitespace.  Implemented by structural recursion on the character list so
that concrete instances evaluate inside the kernel. -/
def pyStrip (s : String) : String :=
  String.mk
    (((s.data.dropWhile Char.isWhitespace).reverse.dropWhile
        Char.isWhitespace).reverse)

/-- Python `str.startswith(pre)`. -/
def pyStartsWith (s pre : String) : Bool :=
  isPre pre.data s.data

/-- Index of the last occurrence of a dot in a character list
(Python's `str.rfind('.')` restricted to a found result). -/
def lastDotPos (cs : List Char) : Option Nat :=
  ((List.range cs.length).filter (fun i => cs.getD i ' ' == '.')).getLast?

/-- Python `pathlib.PurePath.suffix`: the final component's last dot-extension,
empty unless the last dot sits strictly inside the name. -/
def pyExt (name : String) : String :=
  let cs := name.data
  match lastDotPos cs with
  | some i => if 0 < i ∧ i < cs.length - 1 then String.mk (cs.drop i) else ""
  | none => ""

/-- Python `pathlib.PurePath.stem`: the name without `pyExt`. -/
def pyStem (name : String) : String :=
  let cs := name.data
  match lastDotPos cs with
  | some i => if 0 < i ∧ i < cs.length - 1 then String.mk (cs.take i) else name
  | none => name

/-! ## Filesystem model -/

/-- One entry of a directory listing, as seen by `Path.iterdir`:
its name and whether it is a regular file (`Path.is_file`). -/
structure Entry where
  name : String
  isFile : Bool
deriving DecidableEq, Repr

/-- The filesystem restricted to what the code observes: a finite map from a
directory path to its listing (in `iterdir` order).  A path absent from the
map is a directory that does not exist. -/
structure FS where
  dirs : List (String × List Entry)
deriving Repr

/-- `Path(output_dir) / category` when a category is present, `Path(output_dir)`
otherwise (batch_processor.py lines 32-35 and 73-76). -/
def targetPath (output_dir : String) (category : Option String) : String :=
  match category with
  | some c => output_dir ++ "/" ++ c
  | none => output_dir

/-- Effect of `Path.mkdir(parents=True, exist_ok=True)` on the model:
create an empty listing when the directory is absent, do nothing otherwise. -/
def mkdirFS (fs : FS) (p : String) : FS :=
  if (fs.dirs.lookup p).isSome then fs else ⟨(p, []) :: fs.dirs⟩

/-- `check_existing_file` (batch_processor.py lines 20-44): scan
`output_dir[/category]` non-recursively for the first regular file whose
stem equals `upc`; `none` when the directory does not exist or no entry
matches.  The function only reads the listing. -/
def check_existing_file (fs : FS) (output_dir : String) (upc : String)
    (category : Option String) : Option Entry :=
  let output_path := targetPath output_dir category
  match fs.dirs.lookup output_path with
  | none => none
  | some entries => entries.find? (fun f => f.isFile && pyStem f.name == upc)

/-! ## Item pipeline (`download_and_rename`, batch_processor.py lines 47-133) -/

/-- The value returned by the external `download_first_file`: the downloaded
file's name and whether the returned path exists on disk. -/
structure DFile where
  name : String
  fileExists : Bool
deriving DecidableEq, Repr

/-- Environment of one `download_and_rename` call.  Each fallible operation of
the Python body is an oracle: `.error e` means that operation raised an
exception whose `str` is `e`.  The engine oracle takes the source url and the
session identifier (`user_data_dir`) actually passed to it. -/
structure ItemEnv where
  fs : FS
  isWindows : Bool
  tempRoot : String
  mkdirTarget : Except String Unit
  mkdirTemp : Except String Unit
  engine : String → String → Except String (Option DFile)
  move : Except String Unit
  tempDirExistsAfter : Bool
  rmtreeTemp : Except String Unit

/-- The automation-session identifier (`user_data_dir`, batch_processor.py
lines 91-95): on Windows it embeds both the thread slot and the item's upc
under the system temp root; elsewhere it is keyed by the thread slot alone. -/
def userDataDir (isWindows : Bool) (tempRoot : String) (thread_id : Nat)
    (upc : String) : String :=
  if isWindows then
    tempRoot ++ "\\chrome-download-" ++ toString thread_id ++ "-" ++ upc
  else
    "/tmp/chrome-download-" ++ toString thread_id

/-- Body of the `try` block of `download_and_rename` (lines 72-130).
Returns `.ok ((success, message), engineInvoked)` when the body returns
normally and `.error e` when it raises; the second component instruments
whether `download_first_file` was invoked on this path.  The inner
`finally` block only performs `ignore_errors=True` cleanup, so it affects
neither the returned value nor exception propagation; the one cleanup call
without `ignore_errors` (line 118) is the `rmtreeTemp` oracle. -/
def itemBody (env : ItemEnv) (upc : String) (image_url : String)
    (output_dir : String) (thread_id : Nat) (category : Option String) :
    Except String ((Bool × String) × Bool) :=
  let target_dir := targetPath output_dir category
  match env.mkdirTarget with
  | .error e => .error e
  | .ok _ =>
    let fs1 := mkdirFS env.fs target_dir
    match check_existing_file fs1 output_dir upc category with
    | some existing =>
        .ok ((true, "Skipped (already exists: " ++ existing.name ++ ")"), false)
    | none =>
      match env.mkdirTemp with
      | .error e => .error e
      | .ok _ =>
        let user_data_dir := userDataDir env.isWindows env.tempRoot thread_id upc
        match env.engine image_url user_data_dir with
        | .error e => .error e
        | .ok none => .ok ((false, "Download failed - no file returned"), true)
        | .ok (some f) =>
          if !f.fileExists then
            .ok ((false, "Download failed - no file returned"), true)
          else
            match env.move with
            | .error e => .error e
            | .ok _ =>
              match (if env.tempDirExistsAfter then env.rmtreeTemp else .ok ()) with
              | .error e => .error e
              | .ok _ =>
                .ok ((true, "Downloaded as " ++ upc ++ pyExt f.name), true)

/-- `download_and_rename`: the body wrapped in the catch-all
`except Exception` (lines 132-133), which converts any raised fault into
`(False, "Error: " + str(e))`. -/
def download_and_rename (env : ItemEnv) (upc : String) (image_url : String)
    (output_dir : String) (thread_id : Nat) (category : Option String) :
    Bool × String :=
  match itemBody env upc image_url output_dir thread_id category with
  | .ok (r, _) => r
  | .error e => (false, "Error: " ++ e)

/-! ## Statistics (`models.py`) -/

/-- One element of `DownloadStats.failed` (models.py lines 32-38). -/
structure FailureRec (ρ : Type) where
  upc : String
  url : String
  error : String
  row_data : ρ
deriving DecidableEq, Repr

/-- `DownloadStats` (models.py lines 18-24). -/
structure DownloadStats (ρ : Type) where
  total : Nat := 0
  completed : Nat := 0
  skipped : Nat := 0
  failed : List (FailureRec ρ) := []
deriving DecidableEq, Repr

/-! ## Manifest rows and one round of processing -/

/-- A manifest row that survived `dropna`: the `UPC` and `IMAGES LINK` cells
as strings, the optional `CATEGORY` cell (`none` models a missing/NaN cell),
and the remaining columns carried verbatim (`row.to_dict()`). -/
structure Row where
  upc : String
  link : String
  category : Option String
  rest : List (String × String)
deriving DecidableEq, Repr

/-- A raw manifest row before validation: `none` in a required cell models a
NaN dropped by `df.dropna(subset=['UPC', 'IMAGES LINK'])`. -/
structure RawRow where
  upc : Option String
  link : Option String
  category : Option String
  rest : List (String × String)
deriving DecidableEq, Repr

/-- `df.dropna(subset=['UPC', 'IMAGES LINK'])` (batch_processor.py line 232):
keep exactly the rows carrying both required cells. -/
def dropnaRows (raws : List RawRow) : List Row :=
  raws.filterMap fun r =>
    match r.upc, r.link with
    | some u, some l => some ⟨u, l, r.category, r.rest⟩
    | _, _ => none

/-- The category handed to the pipeline for one row
(`str(row['CATEGORY']).strip() if has_category and pd.notna(...) else None`). -/
def rowCategory (has_category : Bool) (r : Row) : Option String :=
  if has_category then
    match r.category with
    | some c => some (pyStrip c)
    | none => none
  else none

/-- The `(success, message)` outcome of the pipeline call for the row at
index `i`: arguments are the stripped cells, the worker slot given by
`tidOf i`, and that call's environment `envOf i`. -/
def rowResult (envOf : Nat → ItemEnv) (out : String) (hc : Bool)
    (tidOf : Nat → Nat) (i : Nat) (r : Row) : Bool × String :=
  download_and_rename (envOf i) (pyStrip r.upc) (pyStrip r.link) out (tidOf i)
    (rowCategory hc r)

/-- Classification of one pipeline result, shared verbatim by the
single-threaded loop (lines 295-305) and the pool's completion handler
(lines 346-356): a success whose message contains `"Skipped"` counts as
skipped, any other success counts as completed and records the upc in
`successful_upcs`, a failure appends a `FailureRec` carrying the row. -/
def tally (acc : DownloadStats Row × List String) (upc url : String) (r : Row)
    (res : Bool × String) : DownloadStats Row × List String :=
  let (stats, sup) := acc
  if res.1 then
    if strContains res.2 "Skipped" then
      ({ stats with skipped := stats.skipped + 1 }, sup)
    else
      ({ stats with completed := stats.completed + 1 }, upc :: sup)
  else
    ({ stats with failed := stats.failed ++ [⟨upc, url, res.2, r⟩] }, sup)

/-- The iteration core of `_process_single_threaded` (lines 283-307), with the
running row index made explicit. -/
def processFrom (envOf : Nat → ItemEnv) (out : String) (hc : Bool)
    (tidOf : Nat → Nat) :
    Nat → (DownloadStats Row × List String) → List Row →
      DownloadStats Row × List String
  | _, acc, [] => acc
  | i, acc, r :: rs =>
      processFrom envOf out hc tidOf (i + 1)
        (tally acc (pyStrip r.upc) (pyStrip r.link) r
          (rowResult envOf out hc tidOf i r))
        rs

/-- `_process_single_threaded`: every row processed in manifest order with
`thread_id = 0`, starting from the fresh `DownloadStats` whose `total` was
set to the row count by `process_excel` (line 239). -/
def processSingleThreaded (envOf : Nat → ItemEnv) (out : String) (hc : Bool)
    (rows : List Row) : DownloadStats Row × List String :=
  processFrom envOf out hc (fun _ => 0) 0
    ({ total := rows.length, completed := 0, skipped := 0, failed := [] }, []) rows

/-- Handling of one completed future in `_process_multi_threaded`
(lines 339-363): `poolFault idx = some e` models `future.result()` (or the
subsequent bookkeeping) raising at the pool boundary, which is caught and
recorded as a failure for that item; otherwise the result is classified
exactly as in the single-threaded loop. -/
def multiStep (envOf : Nat → ItemEnv) (out : String) (hc : Bool)
    (threads : Nat) (rows : List Row) (poolFault : Nat → Option String)
    (acc : DownloadStats Row × List String) (idx : Nat) :
    DownloadStats Row × List String :=
  match rows.get? idx with
  | none => acc
  | some r =>
    match poolFault idx with
    | some e =>
        ({ acc.1 with
           failed := acc.1.failed ++ [⟨pyStrip r.upc, pyStrip r.link, e, r⟩] },
         acc.2)
    | none =>
        tally acc (pyStrip r.upc) (pyStrip r.link) r
          (rowResult envOf out hc (fun i => i % threads) idx r)

/-- `_process_multi_threaded` (lines 310-363): one future is submitted per row
with `thread_id = idx % threads`; `order` is the completion order in which
`as_completed` yields the futures, and each completion is tallied once. -/
def processMultiThreaded (envOf : Nat → ItemEnv) (out : String) (hc : Bool)
    (threads : Nat) (rows : List Row) (poolFault : Nat → Option String)
    (order : List Nat) : DownloadStats Row × List String :=
  order.foldl (multiStep envOf out hc threads rows poolFault)
    ({ total := rows.length, completed := 0, skipped := 0, failed := [] }, [])

/-- The stripped upcs handed to the pipeline, one per manifest row, in
dispatch order (both loops dispatch exactly one call per row). -/
def dispatchedUpcs (rows : List Row) : List String :=
  rows.map fun r => pyStrip r.upc

/-! ## Failed-subset artifacts -/

/-- The rows written to the failed-subset manifest: the `row_data` of each
failure, in failure order (batch_processor.py lines 256-259). -/
def failedArtifactRows (stats : DownloadStats Row) : List Row :=
  stats.failed.map (·.row_data)

/-- `create_failed_excel` content behaviour (lines 136-157): no artifact when
there are no failed rows, otherwise the failed rows verbatim. -/
def create_failed_excel (df_failed : List Row) : Option (List Row) :=
  if df_failed.isEmpty then none else some df_failed

/-- The deterministic artifact name `failed_<output-dir-leaf>.xlsx`
(line 154). -/
def failedExcelName (dir_name : String) : String :=
  "failed_" ++ dir_name ++ ".xlsx"

/-- `remove_successful_from_failed_excel` (lines 160-182) acting on the
artifact's content: `none` models a non-existent file.  Rows whose stripped
`UPC` is in `successful_upcs` are dropped; the file is deleted when nothing
remains and rewritten with the remaining rows otherwise. -/
def remove_successful_from_failed_excel (artifact : Option (List Row))
    (successful_upcs : List String) : Option (List Row) :=
  match artifact with
  | none => none
  | some df =>
    let df_remaining :=
      df.filter fun r => !(successful_upcs.contains (pyStrip r.upc))
    if df_remaining.isEmpty then none else some df_remaining

/-- The pruning call site in `process_excel` (lines 212-214 and 268-269):
the input manifest's content is pruned only when its name starts with
`failed_` (`is_retry`) and `successful_upcs` is non-empty (Python truthiness
of the set). -/
def pruneAfterRound (excel_name : String) (input_artifact : Option (List Row))
    (successful_upcs : List String) : Option (List Row) :=
  if pyStartsWith excel_name "failed_" && !successful_upcs.isEmpty then
    remove_successful_from_failed_excel input_artifact successful_upcs
  else input_artifact

/-! ## Retry coordinator (`cli.py`) -/

/-- Default of the `--retry` option when the flag is absent
(cli.py line 65: `default=0`). -/
def retryDefault : Int := 0

/-- Value of the `--retry` option when the flag is given without an argument
(cli.py line 63: `const=-1`, unlimited). -/
def retryConst : Int := -1

/-- How `run_with_retry` terminates: all downloads succeeded; the bounded
retry budget was exhausted with the named artifact remaining; or control
reached `_handle_interactive_retry`, which presents the interactive
prompt for the named artifact. -/
inductive RetryEnd where
  | success : RetryEnd
  | budgetExhausted : String → RetryEnd
  | interactive : String → RetryEnd
deriving DecidableEq, Repr

/-- The `while True` loop of `run_with_retry` (cli.py lines 106-148).
`outcome n` is the failed-artifact path returned by the `n`-th
`process_excel` call (`none` = no failures).  Returns
`some (roundsRun, end)`; `none` when the fuel bound is hit first. -/
def runWithRetryAux (outcome : Nat → Option String) (maxRetries : Int) :
    Nat → Nat → Nat → Option (Nat × RetryEnd)
  | _, _, 0 => none
  | roundIdx, retryCount, fuel + 1 =>
    match outcome roundIdx with
    | none => some (roundIdx + 1, .success)
    | some artifact =>
      if maxRetries ≠ 0 then
        let retryCount' := retryCount + 1
        if maxRetries > 0 ∧ (retryCount' : Int) > maxRetries then
          some (roundIdx + 1, .budgetExhausted artifact)
        else
          runWithRetryAux outcome maxRetries (roundIdx + 1) retryCount' fuel
      else
        some (roundIdx + 1, .interactive artifact)

/-- `run_with_retry` from the initial call (`retry_count = 0`, first round). -/
def runWithRetry (outcome : Nat → Option String) (maxRetries : Int)
    (fuel : Nat) : Option (Nat × RetryEnd) :=
  runWithRetryAux outcome maxRetries 0 0 fuel

/-! ## Derived measures and concrete fixtures -/

/-- Sum of the three outcome tallies. -/
def statSum {ρ : Type} (s : DownloadStats ρ) : Nat :=
  s.completed + s.skipped + s.failed.length

/-- A pipeline result that the callers classify as freshly completed:
success whose message does not contain `"Skipped"`. -/
def isCompletedRes (res : Bool × String) : Bool :=
  res.1 && !(strContains res.2 "Skipped")

/-- A filesystem with no directories. -/
def fsEmpty : FS := ⟨[]⟩

/-- A filesystem whose output directory already holds `111.jpg`. -/
def fsX : FS := ⟨[("out", [⟨"111.jpg", true⟩])]⟩

def rowX : Row := ⟨"111", "url1", none, []⟩

def rowY : Row := ⟨"222", "url2", none, []⟩

/-- Environment where every operation succeeds but the engine returns no file. -/
def envFail : ItemEnv :=
  { fs := fsEmpty, isWindows := false, tempRoot := "/tmp",
    mkdirTarget := .ok (), mkdirTemp := .ok (),
    engine := fun _ _ => .ok none, move := .ok (),
    tempDirExistsAfter := false, rmtreeTemp := .ok () }

/-- Environment where the output tree already holds the item's file. -/
def envSkip : ItemEnv :=
  { fs := fsX, isWindows := false, tempRoot := "/tmp",
    mkdirTarget := .ok (), mkdirTemp := .ok (),
    engine := fun _ _ => .ok none, move := .ok (),
    tempDirExistsAfter := false, rmtreeTemp := .ok () }

/-- Environment where a fresh download succeeds with a `.png` file. -/
def envDlOk : ItemEnv :=
  { fs := fsEmpty, isWindows := false, tempRoot := "/tmp",
    mkdirTarget := .ok (), mkdirTemp := .ok (),
    engine := fun _ _ => .ok (some ⟨"img.png", true⟩), move := .ok (),
    tempDirExistsAfter := false, rmtreeTemp := .ok () }

/-- Environment where a fresh download succeeds, but the downloaded file
carries the extension `.Skipped`. -/
def envDlTricky : ItemEnv :=
  { fs := fsEmpty, isWindows := false, tempRoot := "/tmp",
    mkdirTarget := .ok (), mkdirTemp := .ok (),
    engine := fun _ _ => .ok (some ⟨"img.Skipped", true⟩), move := .ok (),
    tempDirExistsAfter := false, rmtreeTemp := .ok () }

/-- Environment where creating the target directory raises. -/
def envMkdirFail : ItemEnv :=
  { fs := fsEmpty, isWindows := false, tempRoot := "/tmp",
    mkdirTarget := .error "boom", mkdirTemp := .ok (),
    engine := fun _ _ => .ok none, move := .ok (),
    tempDirExistsAfter := false, rmtreeTemp := .ok () }

/-- Environment where the download engine itself raises. -/
def envEngineRaise : ItemEnv :=
  { fs := fsEmpty, isWindows := false, tempRoot := "/tmp",
    mkdirTarget := .ok (), mkdirTemp := .ok (),
    engine := fun _ _ => .error "crash", move := .ok (),
    tempDirExistsAfter := false, rmtreeTemp := .ok () }

def rawX : RawRow := ⟨some "111", some "url1", none, []⟩

/-- A raw manifest row with a missing required cell, dropped by `dropna`. -/
def rawBad : RawRow := ⟨some "222", none, none, []⟩

def rowDup1 : Row := ⟨"1", "u1", none, []⟩

def rowDup2 : Row := ⟨"1", "u2", none, []⟩

def row123 : Row := ⟨"123", "u", none, []⟩

/-! ## Lemmas about substring search -/

theorem isPre_iff (n h : List Char) : isPre n h = true ↔ ∃ r, h = n ++ r := by
  induction n generalizing h with
  | nil => simp [isPre]
  | cons a as ih =>
    cases h with
    | nil =>
      simp [isPre]
    | cons b bs =>
      simp only [isPre, Bool.and_eq_true, beq_iff_eq, ih, List.cons_append]
      constructor
      · rintro ⟨rfl, r, rfl⟩
        exact ⟨r, rfl⟩
      · rintro ⟨r, hr⟩
        injection hr with h1 h2
        exact ⟨h1.symm, r, h2⟩

theorem hasSub_iff (n h : List Char) : hasSub n h = true ↔ ∃ p r, h = p ++ n ++ r := by
  induction h with
  | nil =>
    simp only [hasSub, List.isEmpty_iff]
    constructor
    · rintro rfl
      exact ⟨[], [], rfl⟩
    · rintro ⟨p, r, hpr⟩
      rcases List.append_eq_nil.mp hpr.symm with ⟨h1, -⟩
      exact (List.append_eq_nil.mp h1).2
  | cons c t ih =>
    simp only [hasSub, Bool.or_eq_true, isPre_iff, ih]
    constructor
    · rintro (⟨r, hr⟩ | ⟨p, r, hpr⟩)
      · exact ⟨[], r, by simpa using hr⟩
      · exact ⟨c :: p, r, by simp [hpr]⟩
    · rintro ⟨p, r, hpr⟩
      cases p with
      | nil => exact Or.inl ⟨r, by simpa using hpr⟩
      | cons d p' =>
        simp only [List.cons_append] at hpr
        injection hpr with h1 h2
        exact Or.inr ⟨p', r, h2⟩

theorem hasSub_append_cases (n a b : List Char) (h : hasSub n (a ++ b) = true) :
    hasSub n a = true ∨ hasSub n b = true ∨
    ∃ k, 0 < k ∧ k < n.length ∧ (∃ p, a = p ++ n.take k) ∧
      (∃ r, b = n.drop k ++ r) := by
  rw [hasSub_iff] at h
  obtain ⟨p, r, hpr⟩ := h
  by_cases h1 : p.length + n.length ≤ a.length
  · left
    rw [hasSub_iff]
    refine ⟨p, r.take (a.length - p.length - n.length), ?_⟩
    have ha : a = (a ++ b).take a.length := (List.take_left a b).symm
    rw [hpr, List.append_assoc, List.take_append_eq_append_take,
      List.take_append_eq_append_take, List.take_of_length_le (by omega),
      List.take_of_length_le (by omega)] at ha
    simpa [List.append_assoc] using ha
  · by_cases h2 : a.length ≤ p.length
    · right; left
      rw [hasSub_iff]
      refine ⟨p.drop a.length, r, ?_⟩
      have hb : b = (a ++ b).drop a.length := (List.drop_left a b).symm
      rw [hpr, List.append_assoc, List.drop_append_eq_append_drop,
        Nat.sub_eq_zero_of_le h2, List.drop_zero] at hb
      simpa [List.append_assoc] using hb
    · right; right
      refine ⟨a.length - p.length, by omega, by omega, ⟨p, ?_⟩, ⟨r, ?_⟩⟩
      · have ha : a = (a ++ b).take a.length := (List.take_left a b).symm
        rw [hpr, List.append_assoc, List.take_append_eq_append_take,
          List.take_of_length_le (le_of_lt (lt_of_not_le h2)),
          List.take_append_eq_append_take,
          show a.length - p.length - n.length = 0 by omega,
          List.take_zero, List.append_nil] at ha
        exact ha
      · have hb : b = (a ++ b).drop a.length := (List.drop_left a b).symm
        rw [hpr, List.append_assoc, List.drop_append_eq_append_drop,
          List.drop_eq_nil_of_le (le_of_lt (lt_of_not_le h2)),
          List.drop_append_eq_append_drop,
          show a.length - p.length - n.length = 0 by omega,
          List.drop_zero, List.nil_append] at hb
        exact hb

theorem isPre_append_left {n a : List Char} (h : isPre n a = true) (b : List Char) :
    isPre n (a ++ b) = true := by
  rw [isPre_iff] at h ⊢
  obtain ⟨r, rfl⟩ := h
  exact ⟨r ++ b, by simp⟩

theorem hasSub_of_isPre {n h : List Char} (hp : isPre n h = true) :
    hasSub n h = true := by
  cases h with
  | nil =>
    rw [isPre_iff] at hp
    obtain ⟨r, hr⟩ := hp
    obtain ⟨rfl, -⟩ := List.append_eq_nil.mp hr.symm
    rfl
  | cons c t => simp [hasSub, hp]

/-- The skip message produced by the pipeline always contains `"Skipped"`. -/
theorem strContains_skipped_msg (nm : String) :
    strContains ("Skipped (already exists: " ++ nm ++ ")") "Skipped" = true := by
  unfold strContains
  rw [String.data_append, String.data_append]
  apply hasSub_of_isPre
  rw [List.append_assoc]
  exact isPre_append_left (by decide :
    isPre ("Skipped" : String).data ("Skipped (already exists: " : String).data = true) _

theorem lastDotPos_spec {cs : List Char} {i : Nat} (h : lastDotPos cs = some i) :
    i < cs.length ∧ cs[i]? = some '.' := by
  unfold lastDotPos at h
  have hmem : i ∈ (List.range cs.length).filter (fun j => cs.getD j ' ' == '.') := by
    obtain ⟨hne, heq⟩ := List.mem_getLast?_eq_getLast (Option.mem_def.mpr h)
    exact heq ▸ List.getLast_mem hne
  rw [List.mem_filter, List.mem_range] at hmem
  obtain ⟨hlt, hp⟩ := hmem
  have hd : cs.getD i ' ' = '.' := beq_iff_eq.mp hp
  rw [List.getD_eq_getElem?_getD, List.getElem?_eq_getElem hlt,
    Option.getD_some] at hd
  exact ⟨hlt, by rw [List.getElem?_eq_getElem hlt, hd]⟩

/-- A `pyExt` value is empty or starts with a dot. -/
theorem pyExt_head (name : String) :
    (pyExt name).data = [] ∨ (pyExt name).data.head? = some '.' := by
  cases hld : lastDotPos name.data with
  | none =>
    left
    simp only [pyExt, hld]
  | some i =>
    by_cases hc : 0 < i ∧ i < name.data.length - 1
    · right
      obtain ⟨-, hdot⟩ := lastDotPos_spec hld
      simp only [pyExt, hld, hc, if_true]
      show (name.data.drop i).head? = some '.'
      rw [List.head?_drop]
      exact hdot
    · left
      simp only [pyExt, hld, hc, if_false]

/-- Key no-confusion fact for the success messages: if neither the item id nor
the extension contains `"Skipped"`, and the extension is empty or begins
with a dot, then `"Downloaded as <id><ext>"` does not contain `"Skipped"`. -/
theorem strContains_download_msg (upc ext : String)
    (hu : strContains upc "Skipped" = false)
    (he : strContains ext "Skipped" = false)
    (hh : ext.data = [] ∨ ext.data.head? = some '.') :
    strContains ("Downloaded as " ++ upc ++ ext) "Skipped" = false := by
  unfold strContains at *
  rw [String.data_append, String.data_append]
  set n := ("Skipped" : String).data with hn
  by_contra hcon
  rw [Bool.not_eq_false] at hcon
  have hkS : ∀ k, k < n.length → 0 < k → (n.take k).getLast? ≠ some ' ' := by
    rw [hn]; decide
  have hkD : ∀ k, k < n.length → (n.drop k).head? ≠ some '.' := by
    rw [hn]; decide
  rcases hasSub_append_cases n _ ext.data hcon with hleft | hright | ⟨k, hk0, hkn, -, ⟨r, hext⟩⟩
  · rcases hasSub_append_cases n _ upc.data hleft with hd | hupc | ⟨k, hk0, hkn, ⟨p, hdp⟩, -⟩
    · revert hd; rw [hn]; decide
    · rw [hu] at hupc; exact Bool.false_ne_true hupc
    · have htk : n.take k ≠ [] := by
        intro hnil
        have := congrArg List.length hnil
        simp [List.length_take] at this
        omega
      have h1 : (("Downloaded as " : String).data).getLast? = (n.take k).getLast? := by
        rw [hdp]; exact List.getLast?_append_of_ne_nil p htk
      have h2 : (("Downloaded as " : String).data).getLast? = some ' ' := by decide
      exact hkS k hkn hk0 (h1 ▸ h2)
  · rw [he] at hright; exact Bool.false_ne_true hright
  · have hdk : n.drop k ≠ [] := by
      intro hnil
      have := congrArg List.length hnil
      simp [List.length_drop] at this
      omega
    have hhead : ext.data.head? = (n.drop k).head? := by
      rw [hext, List.head?_append]
      obtain ⟨c, hcob⟩ := Option.isSome_iff_exists.mp (List.head?_isSome.mpr hdk)
      rw [hcob, Option.or_some]
    rcases hh with hnil | hdot
    · rw [List.head?_eq_none_iff.mpr hnil] at hhead
      exact hdk (List.head?_eq_none_iff.mp hhead.symm)
    · exact hkD k hkn (hhead ▸ hdot)

/-! ## Lemmas about `List.find?` (first-match characterisation) -/

theorem find?_eq_some_split {α : Type} {p : α → Bool} {l : List α} {a : α}
    (h : l.find? p = some a) :
    ∃ l₁ l₂, l = l₁ ++ a :: l₂ ∧ p a = true ∧ ∀ x ∈ l₁, p x = false := by
  induction l with
  | nil => simp [List.find?] at h
  | cons b t ih =>
    cases hb : p b with
    | true =>
      rw [List.find?_cons_of_pos _ hb] at h
      injection h with h1
      subst h1
      exact ⟨[], t, rfl, hb, by simp⟩
    | false =>
      rw [List.find?_cons_of_neg _ (by simp [hb])] at h
      obtain ⟨l₁, l₂, rfl, hpa, hl₁⟩ := ih h
      exact ⟨b :: l₁, l₂, rfl, hpa, by
        intro x hx
        rcases List.mem_cons.mp hx with rfl | hx'
        · exact hb
        · exact hl₁ x hx'⟩

/-! ## Lemmas about one round of processing -/

theorem tally_sum (acc : DownloadStats Row × List String) (u v : String)
    (r : Row) (res : Bool × String) :
    statSum (tally acc u v r res).1 = statSum acc.1 + 1 := by
  rcases acc with ⟨stats, sup⟩
  rcases res with ⟨s, m⟩
  cases s with
  | false => simp [tally, statSum]; omega
  | true => cases hsk : strContains m "Skipped" <;> simp [tally, statSum, hsk] <;> omega

theorem tally_total (acc : DownloadStats Row × List String) (u v : String)
    (r : Row) (res : Bool × String) :
    (tally acc u v r res).1.total = acc.1.total := by
  rcases acc with ⟨stats, sup⟩
  rcases res with ⟨s, m⟩
  cases s with
  | false => simp [tally]
  | true => cases hsk : strContains m "Skipped" <;> simp [tally, hsk]

theorem tally_sup (acc : DownloadStats Row × List String) (u v : String)
    (r : Row) (res : Bool × String) :
    (tally acc u v r res).2 = if isCompletedRes res then u :: acc.2 else acc.2 := by
  rcases acc with ⟨stats, sup⟩
  rcases res with ⟨s, m⟩
  cases s with
  | false => simp [tally, isCompletedRes]
  | true => cases hsk : strContains m "Skipped" <;> simp [tally, isCompletedRes, hsk]

theorem tally_sup_mem (acc : DownloadStats Row × List String) (u₀ v : String)
    (r : Row) (res : Bool × String) (u : String) :
    u ∈ (tally acc u₀ v r res).2 ↔
      u ∈ acc.2 ∨ (isCompletedRes res = true ∧ u = u₀) := by
  rw [tally_sup]
  cases hc : isCompletedRes res <;> simp [hc, List.mem_cons]
  tauto

theorem tally_failed (acc : DownloadStats Row × List String) (u v : String)
    (r : Row) (res : Bool × String) :
    (tally acc u v r res).1.failed =
      acc.1.failed ++ (if res.1 then [] else [⟨u, v, res.2, r⟩]) := by
  rcases acc with ⟨stats, sup⟩
  rcases res with ⟨s, m⟩
  cases s with
  | false => simp [tally]
  | true => cases hsk : strContains m "Skipped" <;> simp [tally, hsk]

theorem processFrom_sum (envOf : Nat → ItemEnv) (out : String) (hc : Bool)
    (tidOf : Nat → Nat) :
    ∀ (rows : List Row) (i : Nat) (acc : DownloadStats Row × List String),
      statSum (processFrom envOf out hc tidOf i acc rows).1 =
        statSum acc.1 + rows.length := by
  intro rows
  induction rows with
  | nil => intro i acc; simp [processFrom]
  | cons r rs ih =>
    intro i acc
    rw [processFrom, ih, tally_sum]
    simp [List.length_cons]
    omega

theorem processFrom_total (envOf : Nat → ItemEnv) (out : String) (hc : Bool)
    (tidOf : Nat → Nat) :
    ∀ (rows : List Row) (i : Nat) (acc : DownloadStats Row × List String),
      (processFrom envOf out hc tidOf i acc rows).1.total = acc.1.total := by
  intro rows
  induction rows with
  | nil => intro i acc; simp [processFrom]
  | cons r rs ih =>
    intro i acc
    rw [processFrom, ih, tally_total]

theorem processFrom_sup_mem (envOf : Nat → ItemEnv) (out : String) (hc : Bool)
    (tidOf : Nat → Nat) :
    ∀ (rows : List Row) (i : Nat) (acc : DownloadStats Row × List String)
      (u : String),
      u ∈ (processFrom envOf out hc tidOf i acc rows).2 ↔
        u ∈ acc.2 ∨ ∃ j r, rows.get? j = some r ∧ pyStrip r.upc = u ∧
          isCompletedRes (rowResult envOf out hc tidOf (i + j) r) = true := by
  intro rows
  induction rows with
  | nil => intro i acc u; simp [processFrom]
  | cons row rs ih =>
    intro i acc u
    rw [processFrom, ih]
    rw [tally_sup_mem]
    constructor
    · rintro ((hmem | ⟨hcm, rfl⟩) | ⟨j, r, hj, hu, hcm⟩)
      · exact Or.inl hmem
      · exact Or.inr ⟨0, row, rfl, rfl, by simpa using hcm⟩
      · refine Or.inr ⟨j + 1, r, hj, hu, ?_⟩
        rw [show i + (j + 1) = i + 1 + j by omega]
        exact hcm
    · rintro (hmem | ⟨j, r, hj, hu, hcm⟩)
      · exact Or.inl (Or.inl hmem)
      · cases j with
        | zero =>
          obtain rfl : row = r := by simpa using hj
          exact Or.inl (Or.inr ⟨by simpa using hcm, hu.symm⟩)
        | succ j' =>
          refine Or.inr ⟨j', r, by simpa using hj, hu, ?_⟩
          rw [show i + 1 + j' = i + (j' + 1) by omega]
          exact hcm

theorem processFrom_failed_mono (envOf : Nat → ItemEnv) (out : String)
    (hc : Bool) (tidOf : Nat → Nat) :
    ∀ (rows : List Row) (i : Nat) (acc : DownloadStats Row × List String)
      (x : FailureRec Row), x ∈ acc.1.failed →
      x ∈ (processFrom envOf out hc tidOf i acc rows).1.failed := by
  intro rows
  induction rows with
  | nil => intro i acc x hx; simpa [processFrom] using hx
  | cons r rs ih =>
    intro i acc x hx
    rw [processFrom]
    exact ih (i + 1) _ x (by rw [tally_failed]; exact List.mem_append_left _ hx)

theorem processFrom_failed_mem (envOf : Nat → ItemEnv) (out : String)
    (hc : Bool) (tidOf : Nat → Nat) :
    ∀ (rows : List Row) (i : Nat) (acc : DownloadStats Row × List String)
      (j : Nat) (r : Row), rows.get? j = some r →
      (rowResult envOf out hc tidOf (i + j) r).1 = false →
      r ∈ failedArtifactRows (processFrom envOf out hc tidOf i acc rows).1 := by
  intro rows
  induction rows with
  | nil => intro i acc j r hj; simp at hj
  | cons row rs ih =>
    intro i acc j r hj hfail
    cases j with
    | zero =>
      obtain rfl : row = r := by simpa using hj
      have hfail' : (rowResult envOf out hc tidOf i row).1 = false := by
        simpa using hfail
      have hx : (⟨pyStrip row.upc, pyStrip row.link,
          (rowResult envOf out hc tidOf i row).2, row⟩ : FailureRec Row) ∈
          (tally acc (pyStrip row.upc) (pyStrip row.link) row
            (rowResult envOf out hc tidOf i row)).1.failed := by
        rw [tally_failed, hfail']
        simp
      rw [processFrom]
      rw [failedArtifactRows, List.mem_map]
      exact ⟨_, processFrom_failed_mono envOf out hc tidOf rs (i + 1) _ _ hx, rfl⟩
    | succ j' =>
      rw [processFrom]
      refine ih (i + 1) _ j' r (by simpa using hj) ?_
      rw [show i + 1 + j' = i + (j' + 1) by omega]
      exact hfail

theorem multiStep_sum (envOf : Nat → ItemEnv) (out : String) (hc : Bool)
    (threads : Nat) (rows : List Row) (poolFault : Nat → Option String)
    (acc : DownloadStats Row × List String) (idx : Nat)
    (hidx : idx < rows.length) :
    statSum (multiStep envOf out hc threads rows poolFault acc idx).1 =
      statSum acc.1 + 1 := by
  obtain ⟨r, hr⟩ : ∃ r, rows.get? idx = some r :=
    ⟨rows.get ⟨idx, hidx⟩, List.get?_eq_get hidx⟩
  unfold multiStep
  rw [hr]
  cases hpf : poolFault idx with
  | some e => simp [statSum]; omega
  | none => exact tally_sum acc (pyStrip r.upc) (pyStrip r.link) r _

theorem multiStep_total (envOf : Nat → ItemEnv) (out : String) (hc : Bool)
    (threads : Nat) (rows : List Row) (poolFault : Nat → Option String)
    (acc : DownloadStats Row × List String) (idx : Nat) :
    (multiStep envOf out hc threads rows poolFault acc idx).1.total =
      acc.1.total := by
  unfold multiStep
  cases hr : rows.get? idx with
  | none => rfl
  | some r =>
    cases hpf : poolFault idx with
    | some e => rfl
    | none => exact tally_total acc (pyStrip r.upc) (pyStrip r.link) r _

theorem foldl_multiStep_sum (envOf : Nat → ItemEnv) (out : String) (hc : Bool)
    (threads : Nat) (rows : List Row) (poolFault : Nat → Option String) :
    ∀ (order : List Nat) (acc : DownloadStats Row × List String),
      (∀ i ∈ order, i < rows.length) →
      statSum (order.foldl (multiStep envOf out hc threads rows poolFault) acc).1 =
        statSum acc.1 + order.length := by
  intro order
  induction order with
  | nil => intro acc h; simp
  | cons idx rest ih =>
    intro acc h
    rw [List.foldl_cons, ih _ (fun i hi => h i (List.mem_cons_of_mem _ hi)),
      multiStep_sum envOf out hc threads rows poolFault acc idx
        (h idx (List.mem_cons_self _ _))]
    simp
    omega

theorem foldl_multiStep_total (envOf : Nat → ItemEnv) (out : String) (hc : Bool)
    (threads : Nat) (rows : List Row) (poolFault : Nat → Option String) :
    ∀ (order : List Nat) (acc : DownloadStats Row × List String),
      (order.foldl (multiStep envOf out hc threads rows poolFault) acc).1.total =
        acc.1.total := by
  intro order
  induction order with
  | nil => intro acc; simp
  | cons idx rest ih =>
    intro acc
    rw [List.foldl_cons, ih, multiStep_total]

/-! ## Lemmas about the retry loop -/

theorem runAux_allFail (outcome : Nat → Option String) (N : Nat) (hN : 0 < N)
    (hall : ∀ n, (outcome n).isSome = true) :
    ∀ (fuel j : Nat), j ≤ N → N - j < fuel →
      ∃ a, outcome N = some a ∧
        runWithRetryAux outcome (N : Int) j j fuel =
          some (N + 1, .budgetExhausted a) := by
  intro fuel
  induction fuel with
  | zero => intro j hj hf; omega
  | succ fuel ih =>
    intro j hj hf
    obtain ⟨aj, haj⟩ := Option.isSome_iff_exists.mp (hall j)
    have hne : (N : Int) ≠ 0 := by omega
    by_cases hjN : j = N
    · subst hjN
      refine ⟨aj, haj, ?_⟩
      rw [runWithRetryAux]
      simp only [haj]
      rw [if_pos hne]
      have hcond : (j : Int) > 0 ∧ ((j + 1 : Nat) : Int) > (j : Int) := by
        constructor <;> omega
      rw [if_pos hcond]
    · have hjlt : j < N := lt_of_le_of_ne hj hjN
      obtain ⟨a, ha, hrec⟩ := ih (j + 1) (by omega) (by omega)
      refine ⟨a, ha, ?_⟩
      rw [runWithRetryAux]
      simp only [haj]
      rw [if_pos hne]
      have hcond : ¬((N : Int) > 0 ∧ ((j + 1 : Nat) : Int) > (N : Int)) := by
        omega
      rw [if_neg hcond]
      exact hrec

/-! ## Concrete fixtures used by witnesses and counterexamples -/

/-- Match predicate of the probe, unfolded to a proposition. -/
theorem probePred_iff (upc : String) (e : Entry) :
    (e.isFile && pyStem e.name == upc) = true ↔
      e.isFile = true ∧ pyStem e.name = upc := by
  simp [Bool.and_eq_true, beq_iff_eq]

/-! ## Claim theorems -/

/-- C8: the existing-file probe scans only the directory
`outputRoot[/category]` non-recursively and returns the first regular file
whose name-without-extension equals the item id; it returns `none` when the
directory does not exist or no entry matches, and its result depends only on
that one directory's listing (it reads and never writes the model state). -/
theorem claim8_probe_spec (fs : FS) (out upc : String) (cat : Option String) :
    (fs.dirs.lookup (targetPath out cat) = none →
      check_existing_file fs out upc cat = none) ∧
    (∀ es, fs.dirs.lookup (targetPath out cat) = some es →
      ((check_existing_file fs out upc cat = none ↔
          ∀ e ∈ es, ¬(e.isFile = true ∧ pyStem e.name = upc)) ∧
       (∀ e, check_existing_file fs out upc cat = some e →
          e.isFile = true ∧ pyStem e.name = upc ∧
          ∃ l₁ l₂, es = l₁ ++ e :: l₂ ∧
            ∀ x ∈ l₁, ¬(x.isFile = true ∧ pyStem x.name = upc)))) ∧
    (∀ fs' : FS, fs'.dirs.lookup (targetPath out cat) =
        fs.dirs.lookup (targetPath out cat) →
      check_existing_file fs' out upc cat = check_existing_file fs out upc cat) := by
  refine ⟨?_, ?_, ?_⟩
  · intro h
    simp only [check_existing_file]
    rw [h]
  · intro es hes
    constructor
    · simp only [check_existing_file]
      rw [hes]
      simp only [List.find?_eq_none, probePred_iff]
    · intro e he
      simp only [check_existing_file] at he
      rw [hes] at he
      obtain ⟨l₁, l₂, heq, hpe, hl₁⟩ := find?_eq_some_split he
      have hpe' : (e.isFile && pyStem e.name == upc) = true := hpe
      obtain ⟨hf, hst⟩ := (probePred_iff upc e).mp hpe'
      refine ⟨hf, hst, l₁, l₂, heq, ?_⟩
      intro x hx hcon
      have hx' : (x.isFile && pyStem x.name == upc) = false := hl₁ x hx
      exact Bool.false_ne_true
        (hx'.symm.trans ((probePred_iff upc x).mpr hcon))
  · intro fs' h
    simp only [check_existing_file]
    rw [h]

/-- Witness for C8 at a concrete missing directory. -/
theorem claim8_probe_spec_witness :
    check_existing_file fsEmpty "out" "111" none = none :=
  (claim8_probe_spec fsEmpty "out" "111" none).1 rfl

/-- C6: when the (existing) target directory already holds a regular file
whose stem equals the item id and the target mkdir succeeds, the pipeline
returns a success whose message is the skip message, and the engine-invoked
flag is `false`: the Download Engine is never called for that item. -/
theorem claim6_idempotent_skip (env : ItemEnv) (upc url out : String)
    (tid : Nat) (cat : Option String) (es : List Entry) (e : Entry)
    (hmk : env.mkdirTarget = .ok ())
    (hdir : env.fs.dirs.lookup (targetPath out cat) = some es)
    (he : e ∈ es) (hf : e.isFile = true) (hstem : pyStem e.name = upc) :
    ∃ eFound : Entry, eFound.isFile = true ∧ pyStem eFound.name = upc ∧
      itemBody env upc url out tid cat =
        .ok ((true, "Skipped (already exists: " ++ eFound.name ++ ")"), false) ∧
      download_and_rename env upc url out tid cat =
        (true, "Skipped (already exists: " ++ eFound.name ++ ")") := by
  have hfs1 : mkdirFS env.fs (targetPath out cat) = env.fs := by
    unfold mkdirFS
    rw [if_pos (by rw [hdir]; rfl)]
  obtain ⟨eF, heF⟩ : ∃ eF,
      es.find? (fun f => f.isFile && pyStem f.name == upc) = some eF :=
    Option.isSome_iff_exists.mp (List.find?_isSome.mpr
      ⟨e, he, (probePred_iff upc e).mpr ⟨hf, hstem⟩⟩)
  have hprobe : check_existing_file env.fs out upc cat = some eF := by
    simp only [check_existing_file]
    rw [hdir]
    exact heF
  have hpF := List.find?_some heF
  obtain ⟨hf', hst'⟩ := (probePred_iff upc eF).mp (by exact hpF)
  refine ⟨eF, hf', hst', ?_, ?_⟩
  · simp only [itemBody, hmk, hfs1, hprobe]
  · simp only [download_and_rename, itemBody, hmk, hfs1, hprobe]

/-- Witness for C6 at a concrete populated output tree. -/
theorem claim6_idempotent_skip_witness :
    ∃ eFound : Entry, eFound.isFile = true ∧ pyStem eFound.name = "111" ∧
      itemBody envSkip "111" "u" "out" 0 none =
        .ok ((true, "Skipped (already exists: " ++ eFound.name ++ ")"), false) ∧
      download_and_rename envSkip "111" "u" "out" 0 none =
        (true, "Skipped (already exists: " ++ eFound.name ++ ")") :=
  claim6_idempotent_skip envSkip "111" "u" "out" 0 none
    [⟨"111.jpg", true⟩] ⟨"111.jpg", true⟩ rfl rfl (by decide) rfl (by decide)

/-- C4: all per-item faults are converted to a Failed outcome.  First, every
fault of the body (any oracle's `.error e`) makes `download_and_rename`
return `(false, "Error: " + e)` instead of propagating; in particular an
engine exception does.  Second, an exception escaping a worker task is caught
at the pool boundary and recorded as a Failed record for exactly that item,
leaving the sibling tallies untouched. -/
theorem claim4_faults_contained :
    (∀ (env : ItemEnv) (upc url out : String) (tid : Nat) (cat : Option String)
      (e : String), itemBody env upc url out tid cat = .error e →
      download_and_rename env upc url out tid cat = (false, "Error: " ++ e)) ∧
    (∀ (env : ItemEnv) (upc url out : String) (tid : Nat) (cat : Option String)
      (e : String), env.mkdirTarget = .ok () →
      check_existing_file (mkdirFS env.fs (targetPath out cat)) out upc cat = none →
      env.mkdirTemp = .ok () →
      env.engine url (userDataDir env.isWindows env.tempRoot tid upc) = .error e →
      download_and_rename env upc url out tid cat = (false, "Error: " ++ e)) ∧
    (∀ (envOf : Nat → ItemEnv) (out : String) (hc : Bool) (threads : Nat)
      (rows : List Row) (poolFault : Nat → Option String)
      (acc : DownloadStats Row × List String) (idx : Nat) (r : Row) (e : String),
      rows.get? idx = some r → poolFault idx = some e →
      multiStep envOf out hc threads rows poolFault acc idx =
        ({ acc.1 with
           failed := acc.1.failed ++ [⟨pyStrip r.upc, pyStrip r.link, e, r⟩] },
         acc.2)) := by
  refine ⟨?_, ?_, ?_⟩
  · intro env upc url out tid cat e h
    unfold download_and_rename
    rw [h]
  · intro env upc url out tid cat e hmk hpro hmk2 heng
    simp only [download_and_rename, itemBody, hmk, hpro, hmk2, heng]
  · intro envOf out hc threads rows poolFault acc idx r e hr hpf
    unfold multiStep
    rw [hr, hpf]

/-- Witness for C4 at concrete faulting environments. -/
theorem claim4_faults_contained_witness :
    download_and_rename envMkdirFail "1" "u" "out" 0 none =
      (false, "Error: boom") ∧
    download_and_rename envEngineRaise "1" "u" "out" 0 none =
      (false, "Error: crash") ∧
    multiStep (fun _ => envFail) "out" false 2 [rowX]
        (fun _ => some "thread blew up")
        ({ total := 1, completed := 0, skipped := 0, failed := [] }, []) 0 =
      ({ total := 1, completed := 0, skipped := 0,
         failed := [⟨"111", "url1", "thread blew up", rowX⟩] }, []) := by
  refine ⟨claim4_faults_contained.1 envMkdirFail "1" "u" "out" 0 none "boom" rfl,
    claim4_faults_contained.2.1 envEngineRaise "1" "u" "out" 0 none "crash"
      rfl rfl rfl rfl, ?_⟩
  rw [claim4_faults_contained.2.2 (fun _ => envFail) "out" false 2 [rowX]
    (fun _ => some "thread blew up")
    ({ total := 1, completed := 0, skipped := 0, failed := [] }, [])
    0 rowX "thread blew up" rfl rfl]
  decide

/-- C3 counterexample: on Windows the automation-session identifier embeds
the item id, so two items on the same worker slot receive different
identifiers — the identifier is not a function of the worker slot alone. -/
theorem claim3_counterexample :
    userDataDir true "C:\\Temp" 0 "100" ≠ userDataDir true "C:\\Temp" 0 "200" := by
  decide

/-- C3 amended: on non-Windows platforms the session identifier is a function
of the worker slot alone (independent of temp root and item id); on Windows
it additionally embeds the item id. -/
theorem claim3_slot_only_amended :
    (∀ (tempRoot₁ tempRoot₂ : String) (tid : Nat) (u₁ u₂ : String),
      userDataDir false tempRoot₁ tid u₁ = userDataDir false tempRoot₂ tid u₂) ∧
    (∀ (tempRoot : String) (tid : Nat) (u : String),
      strContains (userDataDir true tempRoot tid u) u = true) := by
  constructor
  · intro r₁ r₂ t u₁ u₂
    rfl
  · intro root t u
    show hasSub u.data
      ((root ++ "\\chrome-download-" ++ toString t ++ "-" ++ u)).data = true
    exact (hasSub_iff _ _).mpr
      ⟨(root ++ "\\chrome-download-" ++ toString t ++ "-").data, [],
        by rw [String.data_append, List.append_nil]⟩

/-- C2 counterexample: with the retry flag absent (`--retry` defaults to `0`)
and a round that ends with failures, the coordinator reaches
`_handle_interactive_retry`, i.e. the interactive prompt IS presented. -/
theorem claim2_counterexample :
    runWithRetry (fun _ => some "failed_output.xlsx") retryDefault 5 =
      some (1, RetryEnd.interactive "failed_output.xlsx") := rfl

/-- C2 amended: with the retry flag absent exactly one round runs and no
automatic retry occurs; the invocation ends successfully when the round has
no failures and otherwise hands the artifact to the interactive prompt. -/
theorem claim2_single_round_amended (outcome : Nat → Option String)
    (fuel : Nat) :
    runWithRetry outcome retryDefault (fuel + 1) =
      (match outcome 0 with
       | none => some (1, RetryEnd.success)
       | some a => some (1, RetryEnd.interactive a)) := by
  unfold runWithRetry retryDefault runWithRetryAux
  cases h0 : outcome 0 <;> simp

/-- C5: for every round, completed + skipped + failures equals the number of
manifest rows remaining after `dropna`, in both the single-threaded loop and
the pool (for any completion order that handles each submitted future exactly
once); the recorded `total` also equals that row count. -/
theorem claim5_completeness (envOf : Nat → ItemEnv) (out : String) (hc : Bool)
    (raws : List RawRow) :
    ((processSingleThreaded envOf out hc (dropnaRows raws)).1.completed +
       (processSingleThreaded envOf out hc (dropnaRows raws)).1.skipped +
       (processSingleThreaded envOf out hc (dropnaRows raws)).1.failed.length =
         (dropnaRows raws).length ∧
     (processSingleThreaded envOf out hc (dropnaRows raws)).1.total =
       (dropnaRows raws).length) ∧
    (∀ (threads : Nat) (poolFault : Nat → Option String) (order : List Nat),
      order.Perm (List.range (dropnaRows raws).length) →
      (processMultiThreaded envOf out hc threads (dropnaRows raws) poolFault
          order).1.completed +
        (processMultiThreaded envOf out hc threads (dropnaRows raws) poolFault
          order).1.skipped +
        (processMultiThreaded envOf out hc threads (dropnaRows raws) poolFault
          order).1.failed.length = (dropnaRows raws).length ∧
      (processMultiThreaded envOf out hc threads (dropnaRows raws) poolFault
          order).1.total = (dropnaRows raws).length) := by
  constructor
  · constructor
    · have h := processFrom_sum envOf out hc (fun _ => 0) (dropnaRows raws) 0
        ({ total := (dropnaRows raws).length, completed := 0, skipped := 0,
           failed := [] }, [])
      simpa [processSingleThreaded, statSum] using h
    · have h := processFrom_total envOf out hc (fun _ => 0) (dropnaRows raws) 0
        ({ total := (dropnaRows raws).length, completed := 0, skipped := 0,
           failed := [] }, [])
      simpa [processSingleThreaded] using h
  · intro threads poolFault order hperm
    constructor
    · have hmem : ∀ i ∈ order, i < (dropnaRows raws).length := fun i hi =>
        List.mem_range.mp (hperm.mem_iff.mp hi)
      have h := foldl_multiStep_sum envOf out hc threads (dropnaRows raws)
        poolFault order
        ({ total := (dropnaRows raws).length, completed := 0, skipped := 0,
           failed := [] }, []) hmem
      have hlen : order.length = (dropnaRows raws).length := by
        rw [hperm.length_eq, List.length_range]
      rw [hlen] at h
      simpa [processMultiThreaded, statSum] using h
    · have h := foldl_multiStep_total envOf out hc threads (dropnaRows raws)
        poolFault order
        ({ total := (dropnaRows raws).length, completed := 0, skipped := 0,
           failed := [] }, [])
      simpa [processMultiThreaded] using h

/-- Witness for C5 instantiating the pool part at a concrete one-item
manifest (with one raw row dropped by validation). -/
theorem claim5_completeness_witness :
    (processMultiThreaded (fun _ => envFail) "out" false 2
        (dropnaRows [rawX, rawBad]) (fun _ => none) [0]).1.completed +
      (processMultiThreaded (fun _ => envFail) "out" false 2
        (dropnaRows [rawX, rawBad]) (fun _ => none) [0]).1.skipped +
      (processMultiThreaded (fun _ => envFail) "out" false 2
        (dropnaRows [rawX, rawBad]) (fun _ => none) [0]).1.failed.length =
      (dropnaRows [rawX, rawBad]).length ∧
    (processMultiThreaded (fun _ => envFail) "out" false 2
        (dropnaRows [rawX, rawBad]) (fun _ => none) [0]).1.total =
      (dropnaRows [rawX, rawBad]).length :=
  (claim5_completeness (fun _ => envFail) "out" false [rawX, rawBad]).2
    2 (fun _ => none) [0] (by decide)

/-- C9 counterexample: the code performs no deduplication, so a manifest with
two distinct rows sharing the id `"1"` dispatches the pipeline twice for
that id within one round. -/
theorem claim9_counterexample :
    rowDup1 ≠ rowDup2 ∧ pyStrip rowDup1.upc = pyStrip rowDup2.upc ∧
    (dispatchedUpcs [rowDup1, rowDup2]).count "1" = 2 ∧
    (dispatchedUpcs [rowDup1, rowDup2]).length = 2 := by
  decide

/-- C9 amended: each round dispatches the pipeline exactly once per manifest
row; hence when the stripped manifest ids are pairwise distinct the pipeline
is invoked at most once per item id per round (uniqueness of ids is an input
assumption the code does not enforce). -/
theorem claim9_unique_dispatch_amended (rows : List Row)
    (h : (dispatchedUpcs rows).Nodup) :
    (dispatchedUpcs rows).length = rows.length ∧
    ∀ u, (dispatchedUpcs rows).count u ≤ 1 := by
  refine ⟨by simp [dispatchedUpcs], ?_⟩
  intro u
  exact List.nodup_iff_count_le_one.mp h u

/-- Witness for C9 at a concrete duplicate-free manifest. -/
theorem claim9_unique_dispatch_amended_witness :
    (dispatchedUpcs [rowX, rowY]).length = [rowX, rowY].length ∧
    (dispatchedUpcs [rowX, rowY]).count "111" ≤ 1 :=
  ⟨(claim9_unique_dispatch_amended [rowX, rowY] (by decide)).1,
   (claim9_unique_dispatch_amended [rowX, rowY] (by decide)).2 "111"⟩

/-- C7: with a bounded budget `N > 0` and an item failing in every round, the
coordinator runs the initial round plus exactly `N` retry rounds (`N + 1`
`process_excel` calls) and then stops in the budget-exhausted state carrying
the last round's artifact; moreover any row whose pipeline call fails in a
round is present in that round's failed-subset artifact rows. -/
theorem claim7_bounded_retry :
    (∀ (N : Nat) (outcome : Nat → Option String) (fuel : Nat),
      0 < N → (∀ n, (outcome n).isSome = true) → N < fuel →
      ∃ a, outcome N = some a ∧
        runWithRetry outcome (N : Int) fuel =
          some (N + 1, RetryEnd.budgetExhausted a)) ∧
    (∀ (envOf : Nat → ItemEnv) (out : String) (hc : Bool) (rows : List Row)
      (j : Nat) (r : Row), rows.get? j = some r →
      (rowResult envOf out hc (fun _ => 0) j r).1 = false →
      r ∈ failedArtifactRows (processSingleThreaded envOf out hc rows).1) := by
  constructor
  · intro N outcome fuel hN hall hfuel
    exact runAux_allFail outcome N hN hall fuel 0 (by omega) (by omega)
  · intro envOf out hc rows j r hj hfail
    have h := processFrom_failed_mem envOf out hc (fun _ => 0) rows 0
      ({ total := rows.length, completed := 0, skipped := 0, failed := [] }, [])
      j r hj (by simpa using hfail)
    simpa [processSingleThreaded] using h

/-- Witness for C7: budget 2, every round failing, fuel 4 — exactly 3 rounds
(1 initial + 2 retries); and a concretely failing row is in the artifact. -/
theorem claim7_bounded_retry_witness :
    (∃ a, (fun _ : Nat => some "failed_output.xlsx") 2 = some a ∧
      runWithRetry (fun _ => some "failed_output.xlsx") (2 : Int) 4 =
        some (3, RetryEnd.budgetExhausted a)) ∧
    rowX ∈ failedArtifactRows
      (processSingleThreaded (fun _ => envFail) "out" false [rowX]).1 := by
  constructor
  · exact claim7_bounded_retry.1 2 (fun _ => some "failed_output.xlsx") 4
      (by omega) (fun _ => rfl) (by omega)
  · exact claim7_bounded_retry.2 (fun _ => envFail) "out" false [rowX] 0 rowX
      rfl (by decide)

theorem contains_iff_mem (l : List String) (a : String) :
    l.contains a = true ↔ a ∈ l := List.elem_iff

theorem not_contains_iff (l : List String) (a : String) :
    (!l.contains a) = true ↔ a ∉ l := by
  cases hc : l.contains a
  · constructor
    · intro _ hmem
      have hmem' := (contains_iff_mem l a).mpr hmem
      rw [hc] at hmem'
      exact Bool.false_ne_true hmem'
    · intro _
      rfl
  · constructor
    · intro h
      simp at h
    · intro hn
      exact absurd ((contains_iff_mem l a).mp hc) hn

/-- C1 counterexample: a retry round (input named `failed_out.xlsx`) over one
row whose item is Skipped (file already present).  The round ends with
skipped = 1 and no failures, yet `successful_upcs` is empty, so nothing is
pruned: the prior artifact still contains the skipped item's record instead
of being deleted. -/
theorem claim1_counterexample :
    (processSingleThreaded (fun _ => envSkip) "out" false [rowX]).1.skipped = 1 ∧
    (processSingleThreaded (fun _ => envSkip) "out" false [rowX]).1.completed = 0 ∧
    (processSingleThreaded (fun _ => envSkip) "out" false [rowX]).1.failed = [] ∧
    (processSingleThreaded (fun _ => envSkip) "out" false [rowX]).2 = [] ∧
    pruneAfterRound "failed_out.xlsx" (some [rowX])
      (processSingleThreaded (fun _ => envSkip) "out" false [rowX]).2 =
        some [rowX] ∧
    pyStartsWith "failed_out.xlsx" "failed_" = true := by
  decide

/-- C1 amended: after a retry round, `successful_upcs` holds exactly the ids
that ended the round as freshly Completed (Skipped ids are excluded), and —
provided at least one id completed — the prior artifact is rewritten with
exactly its records whose stripped id did not complete, each kept verbatim,
and is deleted precisely when every prior record's id completed. -/
theorem claim1_pruning_amended (name : String) (prior : List Row)
    (envOf : Nat → ItemEnv) (out : String) (hc : Bool) (rows : List Row)
    (hname : pyStartsWith name "failed_" = true)
    (hsup : (processSingleThreaded envOf out hc rows).2 ≠ []) :
    (∀ u, u ∈ (processSingleThreaded envOf out hc rows).2 ↔
      ∃ j r, rows.get? j = some r ∧ pyStrip r.upc = u ∧
        isCompletedRes (rowResult envOf out hc (fun _ => 0) j r) = true) ∧
    (∀ rem, pruneAfterRound name (some prior)
        (processSingleThreaded envOf out hc rows).2 = some rem →
      ∀ r, r ∈ rem ↔ r ∈ prior ∧
        pyStrip r.upc ∉ (processSingleThreaded envOf out hc rows).2) ∧
    (pruneAfterRound name (some prior)
        (processSingleThreaded envOf out hc rows).2 = none ↔
      ∀ r ∈ prior,
        pyStrip r.upc ∈ (processSingleThreaded envOf out hc rows).2) := by
  set sup := (processSingleThreaded envOf out hc rows).2 with hsupdef
  have hguard : (pyStartsWith name "failed_" && !sup.isEmpty) = true := by
    rw [hname, List.isEmpty_eq_false.mpr hsup]
    rfl
  have hprune : pruneAfterRound name (some prior) sup =
      remove_successful_from_failed_excel (some prior) sup := by
    unfold pruneAfterRound
    rw [if_pos hguard]
  refine ⟨?_, ?_, ?_⟩
  · intro u
    rw [hsupdef]
    have h := processFrom_sup_mem envOf out hc (fun _ => 0) rows 0
      ({ total := rows.length, completed := 0, skipped := 0, failed := [] }, [])
      u
    simpa [processSingleThreaded] using h
  · intro rem hrem r
    rw [hprune] at hrem
    simp only [remove_successful_from_failed_excel] at hrem
    split at hrem
    · exact absurd hrem (by simp)
    · injection hrem with hrem'
      subst hrem'
      rw [List.mem_filter]
      exact and_congr_right fun _ => not_contains_iff sup (pyStrip r.upc)
  · rw [hprune]
    simp only [remove_successful_from_failed_excel]
    split
    case isTrue hemp =>
      refine iff_of_true rfl ?_
      intro r hr
      have hall := List.filter_eq_nil_iff.mp (List.isEmpty_iff.mp hemp) r hr
      by_contra hnot
      exact hall ((not_contains_iff sup (pyStrip r.upc)).mpr hnot)
    case isFalse hemp =>
      refine iff_of_false (by simp) ?_
      intro hall
      have hne : (prior.filter fun r => !(sup.contains (pyStrip r.upc))) ≠ [] := by
        intro hnil
        exact hemp (by rw [hnil]; rfl)
      obtain ⟨x, hx⟩ := List.exists_mem_of_ne_nil _ hne
      obtain ⟨hxp, hxb⟩ := List.mem_filter.mp hx
      exact (not_contains_iff sup (pyStrip x.upc)).mp hxb (hall x hxp)

/-- Witness for C1 amended: a retry round completes `222`, so the prior
two-record artifact is rewritten keeping exactly the still-failing `111`
record unchanged. -/
theorem claim1_pruning_amended_witness :
    rowX ∈ [rowX] ↔ rowX ∈ [rowX, rowY] ∧
      pyStrip rowX.upc ∉
        (processSingleThreaded (fun _ => envDlOk) "out" false [rowY]).2 :=
  (claim1_pruning_amended "failed_out.xlsx" [rowX, rowY]
    (fun _ => envDlOk) "out" false [rowY] (by decide) (by decide)).2.1
    [rowX] (by decide) rowX

/-- C10 counterexample: a fresh (no pre-existing file) successful download of
an engine file named `img.Skipped` yields the message
`Downloaded as 123.Skipped`, which contains `"Skipped"` even though the item
id `123` does not — so the callers misclassify the fresh download as Skipped
and the claimed iff between the message marker and the probe result fails. -/
theorem claim10_counterexample :
    download_and_rename envDlTricky "123" "u" "out" 0 none =
      (true, "Downloaded as 123.Skipped") ∧
    strContains "Downloaded as 123.Skipped" "Skipped" = true ∧
    strContains "123" "Skipped" = false ∧
    check_existing_file (mkdirFS envDlTricky.fs (targetPath "out" none))
      "out" "123" none = none ∧
    (processSingleThreaded (fun _ => envDlTricky) "out" false
      [row123]).1.skipped = 1 ∧
    (processSingleThreaded (fun _ => envDlTricky) "out" false
      [row123]).1.completed = 0 ∧
    (processSingleThreaded (fun _ => envDlTricky) "out" false [row123]).2 = [] := by
  decide

/-- C10 amended: for a successful pipeline call, provided neither the item id
nor the downloaded file's extension contains `"Skipped"`, the message
contains `"Skipped"` (and is the skip message) exactly when the probe found a
pre-existing file, and is `Downloaded as <id><ext>` (free of `"Skipped"`)
otherwise — so the skipped/completed classification and pruning eligibility
agree with the probe result. -/
theorem claim10_skip_signal_amended (env : ItemEnv) (upc url out : String)
    (tid : Nat) (cat : Option String) (m : String)
    (hres : download_and_rename env upc url out tid cat = (true, m))
    (hupc : strContains upc "Skipped" = false)
    (heng : ∀ f,
      env.engine url (userDataDir env.isWindows env.tempRoot tid upc) =
        .ok (some f) → strContains (pyExt f.name) "Skipped" = false) :
    match check_existing_file (mkdirFS env.fs (targetPath out cat))
        out upc cat with
    | some e => m = "Skipped (already exists: " ++ e.name ++ ")" ∧
        strContains m "Skipped" = true
    | none =>
        (∃ f, env.engine url (userDataDir env.isWindows env.tempRoot tid upc) =
            .ok (some f) ∧ m = "Downloaded as " ++ upc ++ pyExt f.name) ∧
        strContains m "Skipped" = false := by
  cases hmk : env.mkdirTarget with
  | error e => simp [download_and_rename, itemBody, hmk] at hres
  | ok u1 =>
    cases hprobe : check_existing_file (mkdirFS env.fs (targetPath out cat))
        out upc cat with
    | some e =>
      simp only [download_and_rename, itemBody, hmk, hprobe] at hres
      have hm : m = "Skipped (already exists: " ++ e.name ++ ")" := by
        have h2 := congrArg Prod.snd hres
        exact h2.symm
      subst hm
      exact ⟨rfl, strContains_skipped_msg e.name⟩
    | none =>
      cases hmk2 : env.mkdirTemp with
      | error e =>
        simp [download_and_rename, itemBody, hmk, hprobe, hmk2] at hres
      | ok u2 =>
        cases heng2 : env.engine url
            (userDataDir env.isWindows env.tempRoot tid upc) with
        | error e =>
          simp [download_and_rename, itemBody, hmk, hprobe, hmk2, heng2] at hres
        | ok of =>
          cases of with
          | none =>
            simp [download_and_rename, itemBody, hmk, hprobe, hmk2, heng2]
              at hres
          | some f =>
            cases hfe : f.fileExists with
            | false =>
              simp [download_and_rename, itemBody, hmk, hprobe, hmk2, heng2,
                hfe] at hres
            | true =>
              cases hmv : env.move with
              | error e =>
                simp [download_and_rename, itemBody, hmk, hprobe, hmk2, heng2,
                  hfe, hmv] at hres
              | ok u3 =>
                cases htd : env.tempDirExistsAfter with
                | false =>
                  simp only [download_and_rename, itemBody, hmk, hprobe, hmk2,
                    heng2, hfe, Bool.not_true, Bool.false_eq_true, if_false,
                    hmv, htd, if_neg] at hres
                  have hm : m = "Downloaded as " ++ upc ++ pyExt f.name := by
                    have h2 := congrArg Prod.snd hres
                    exact h2.symm
                  subst hm
                  exact ⟨⟨f, rfl, rfl⟩,
                    strContains_download_msg upc (pyExt f.name) hupc
                      (heng f heng2) (pyExt_head f.name)⟩
                | true =>
                  cases hrt : env.rmtreeTemp with
                  | error e =>
                    simp [download_and_rename, itemBody, hmk, hprobe, hmk2,
                      heng2, hfe, hmv, htd, hrt] at hres
                  | ok u4 =>
                    simp only [download_and_rename, itemBody, hmk, hprobe,
                      hmk2, heng2, hfe, Bool.not_true, Bool.false_eq_true,
                      if_false, hmv, htd, if_true, hrt] at hres
                    have hm : m = "Downloaded as " ++ upc ++ pyExt f.name := by
                      have h2 := congrArg Prod.snd hres
                      exact h2.symm
                    subst hm
                    exact ⟨⟨f, rfl, rfl⟩,
                      strContains_download_msg upc (pyExt f.name) hupc
                        (heng f heng2) (pyExt_head f.name)⟩

/-- Witness for C10 amended at a concrete populated output tree. -/
theorem claim10_skip_signal_amended_witness :
    match check_existing_file (mkdirFS envSkip.fs (targetPath "out" none))
        "out" "111" none with
    | some e =>
        "Skipped (already exists: 111.jpg)" =
          "Skipped (already exists: " ++ e.name ++ ")" ∧
        strContains "Skipped (already exists: 111.jpg)" "Skipped" = true
    | none =>
        (∃ f, envSkip.engine "u"
            (userDataDir envSkip.isWindows envSkip.tempRoot 0 "111") =
              .ok (some f) ∧
          "Skipped (already exists: 111.jpg)" =
            "Downloaded as " ++ "111" ++ pyExt f.name) ∧
        strContains "Skipped (already exists: 111.jpg)" "Skipped" = false :=
  claim10_skip_signal_amended envSkip "111" "u" "out" 0 none
    "Skipped (already exists: 111.jpg)" (by decide) (by decide)
    (fun f h => by simp [envSkip] at h)

end DropboxDL
